import Mathlib

set_option maxRecDepth 4000

/-!
Shallow embedding of the `practice-one` HTTP task service:
the in-memory task store (`internal/store/task-store.go`), the per-identity
rate limiter and middleware chain (`internal/middleware`), the exact-match
router (`internal/router`), the task handlers (`internal/handlers`) and the
wiring in `cmd/api/main.go`.

Modelling conventions:
* Go pointers are modelled by an explicit heap `Ref → Option Models.Task`; a Go
  `*Task` value is a `Ref`, dereference reads the heap.  This keeps the aliasing
  behaviour of the source (`Create` returns the pointer stored in the map,
  `GetByID` returns a pointer to a fresh copy).
* Go `int` is `Int`; time is a `Nat` count of seconds carried explicitly
  (each rate-limiter call and each request carries its `now`).
* Mutex-guarded code is modelled by its sequential semantics; logging and
  JSON byte-level encoding are abstracted (a response body is a symbolic
  value carrying exactly the data the source serialises).
* `fmt.Sprintf("%d", n)` is modelled by the decimal printer `natRepr`.
-/

/-! ### Decimal printing (model of `fmt.Sprintf("%d", _)`) -/

/-- Decimal digits, most significant first; `fuel` bounds the recursion and
any `fuel > n` is enough. -/
def natDigitsAux : Nat → Nat → List Char
  | 0, _ => []
  | fuel + 1, n =>
    if n < 10 then [Nat.digitChar n]
    else natDigitsAux fuel (n / 10) ++ [Nat.digitChar (n % 10)]

/-- Decimal digits of `n`, most significant first. -/
def natDigits (n : Nat) : List Char :=
  natDigitsAux (n + 1) n

/-- Decimal string of `n`. -/
def natRepr (n : Nat) : String :=
  (natDigits n).asString

/-- Value of a digit string, used only to prove `natDigits` injective. -/
def digitsVal (l : List Char) : Nat :=
  l.foldl (fun acc c => acc * 10 + (c.toNat - 48)) 0

/-! ### Task store (`internal/store/task-store.go`) -/

/-- A heap address standing for a Go `*Models.Task`. -/
abbrev Ref := Nat

/-- `models.Task`. -/
structure Models.Task where
  id : Int
  title : String
  done : Bool
deriving Repr, DecidableEq

/-- `store.TaskStore` together with the heap of `Models.Task` cells it points into.
`tasks` is the `map[int]*models.Task`, `nextID` the id counter; `heap`/`nextRef`
model Go's allocator (cells are never reclaimed while a pointer may exist). -/
structure StoreState where
  heap : Ref → Option Models.Task
  nextRef : Ref
  tasks : List (Int × Ref)
  nextID : Int

/-- `store.NewTaskStore()`. -/
def newTaskStore : StoreState :=
  { heap := fun _ => none, nextRef := 0, tasks := [], nextID := 1 }

/-- Write the heap cell at `r`. -/
def heapSet (h : Ref → Option Models.Task) (r : Ref) (t : Models.Task) : Ref → Option Models.Task :=
  fun r' => if r' = r then some t else h r'

/-- Allocate a fresh cell holding `t` (a Go `&Models.Task{...}` or `&taskCopy`). -/
def alloc (s : StoreState) (t : Models.Task) : Ref × StoreState :=
  (s.nextRef,
   { s with heap := heapSet s.heap s.nextRef t, nextRef := s.nextRef + 1 })

/-- Go map assignment `m[k] = r` (any entry with the same key is replaced). -/
def mapInsert (l : List (Int × Ref)) (k : Int) (r : Ref) : List (Int × Ref) :=
  (k, r) :: l.filter (fun p => p.1 != k)

/-- Go `delete(m, k)`. -/
def mapDelete (l : List (Int × Ref)) (k : Int) : List (Int × Ref) :=
  l.filter (fun p => p.1 != k)

/-- `TaskStore.Create`: allocates the record, stores the pointer in the map
and returns that same pointer. -/
def Create (s : StoreState) (title : String) : Ref × StoreState :=
  let t : Models.Task := { id := s.nextID, title := title, done := false }
  let (r, s₁) := alloc s t
  (r, { s₁ with tasks := mapInsert s₁.tasks s.nextID r, nextID := s.nextID + 1 })

/-- `TaskStore.GetByID`: `none` models `ErrTaskNotFound`; on success it
allocates `taskCopy := *task` and returns the pointer to the copy. -/
def GetByID (s : StoreState) (id : Int) : Option Ref × StoreState :=
  match List.lookup id s.tasks with
  | none => (none, s)
  | some r =>
    match s.heap r with
    | none => (none, s)   -- dead branch: the map only holds allocated refs
    | some t =>
      let (r', s') := alloc s t
      (some r', s')

/-- `TaskStore.GetAll`: a fresh copy of every record, in map order. -/
def GetAll (s : StoreState) : List Ref × StoreState :=
  s.tasks.foldl
    (fun acc p =>
      match acc.2.heap p.2 with
      | none => acc       -- dead branch: the map only holds allocated refs
      | some t =>
        let (r', s') := alloc acc.2 t
        (acc.1 ++ [r'], s'))
    ([], s)

/-- `TaskStore.GetByStatus`. -/
def GetByStatus (s : StoreState) (done : Bool) : List Ref × StoreState :=
  s.tasks.foldl
    (fun acc p =>
      match acc.2.heap p.2 with
      | none => acc       -- dead branch: the map only holds allocated refs
      | some t =>
        if t.done == done then
          let (r', s') := alloc acc.2 t
          (acc.1 ++ [r'], s')
        else acc)
    ([], s)

/-- `TaskStore.Update`: `false` models `ErrTaskNotFound`; on success the
record is mutated in place through the stored pointer. -/
def Update (s : StoreState) (id : Int) (done : Bool) : Bool × StoreState :=
  match List.lookup id s.tasks with
  | none => (false, s)
  | some r =>
    match s.heap r with
    | none => (false, s)  -- dead branch: the map only holds allocated refs
    | some t => (true, { s with heap := heapSet s.heap r { t with done := done } })

/-- `TaskStore.Delete`: removes the map entry only (the cell stays allocated,
as under Go's garbage collector any outstanding pointer keeps it alive). -/
def Delete (s : StoreState) (id : Int) : Bool × StoreState :=
  match List.lookup id s.tasks with
  | none => (false, s)
  | some _ => (true, { s with tasks := mapDelete s.tasks id })

/-- Read a task through a pointer (callers only deref live pointers). -/
def derefTask (s : StoreState) (r : Ref) : Models.Task :=
  match s.heap r with
  | some t => t
  | none => { id := 0, title := "", done := false }

/-- The loop body shared by `GetAll` and `GetByStatus` (`keep` is the
`task.Done == done` filter, constantly `true` for `GetAll`): copy the
record into a fresh cell when kept. -/
def getStep (keep : Models.Task → Bool) (acc : List Ref × StoreState)
    (p : Int × Ref) : List Ref × StoreState :=
  match acc.2.heap p.2 with
  | none => acc
  | some t =>
    if keep t then
      let q := alloc acc.2 t
      (acc.1 ++ [q.1], q.2)
    else acc

/-! ### Rate limiter (`internal/middleware`, `RateLimiter`) -/

/-- `middleware.visitor`. -/
structure Visitor where
  tokens : Int
  lastSeen : Nat
  lastRefill : Nat
deriving Repr, DecidableEq

/-- `middleware.RateLimiter`: per-identity visitor map, configured rate and
cleanup interval.  Time is in seconds. -/
structure RateLimiter where
  visitors : String → Option Visitor
  rate : Int
  cleanup : Nat

/-- `time.Minute` in seconds. -/
def minute : Nat := 60

/-- `middleware.NewRateLimiter` (`cleanup := 5 * time.Minute`; the background
eviction goroutine is modelled by the explicit `cleanupVisitors` step). -/
def newRateLimiter (requestsPerMinute : Int) : RateLimiter :=
  { visitors := fun _ => none, rate := requestsPerMinute, cleanup := 5 * minute }

/-- Store visitor state under `ip` (Go mutates `*visitor` in place / inserts
into the map). -/
def setVisitor (rl : RateLimiter) (ip : String) (v : Visitor) : RateLimiter :=
  { rl with visitors := fun k => if k = ip then some v else rl.visitors k }

/-- `RateLimiter.getVisitor`: look up, lazily creating a full bucket. -/
def getVisitor (rl : RateLimiter) (ip : String) (now : Nat) : Visitor × RateLimiter :=
  match rl.visitors ip with
  | some v => (v, rl)
  | none =>
    let v : Visitor := { tokens := rl.rate, lastSeen := now, lastRefill := now }
    (v, setVisitor rl ip v)

/-- `RateLimiter.allow`: refill on window elapse, stamp `lastSeen`, then
decrement gated by `tokens > 0`.  (`now.Sub lastRefill` on the monotone clock
is the truncated `Nat` difference.) -/
def allow (rl : RateLimiter) (ip : String) (now : Nat) : Bool × RateLimiter :=
  let p := getVisitor rl ip now
  let rl₁ := p.2
  let v₁ : Visitor :=
    if minute ≤ now - p.1.lastRefill then
      { p.1 with tokens := rl₁.rate, lastRefill := now }
    else p.1
  let v₂ : Visitor := { v₁ with lastSeen := now }
  if 0 < v₂.tokens then
    (true, setVisitor rl₁ ip { v₂ with tokens := v₂.tokens - 1 })
  else
    (false, setVisitor rl₁ ip v₂)

/-- One sweep of the `cleanupVisitors` goroutine at time `now`:
evict visitors idle for longer than the cleanup interval. -/
def cleanupVisitors (rl : RateLimiter) (now : Nat) : RateLimiter :=
  { rl with
    visitors := fun ip =>
      match rl.visitors ip with
      | some v => if rl.cleanup < now - v.lastSeen then none else some v
      | none => none }

/-- Run `allow` for `ip` once per listed timestamp, collecting the verdicts. -/
def allowTimes (rl : RateLimiter) (ip : String) : List Nat → List Bool × RateLimiter
  | [] => ([], rl)
  | t :: ts =>
    let p := allow rl ip t
    let q := allowTimes p.2 ip ts
    (p.1 :: q.1, q.2)

/-- The events that touch rate-limiter state: an `allow` call and a sweep of
the eviction goroutine. -/
inductive RLOp where
  | allowOp (ip : String) (now : Nat)
  | cleanupOp (now : Nat)

/-- One rate-limiter event. -/
def rlStep (rl : RateLimiter) : RLOp → RateLimiter
  | .allowOp ip now => (allow rl ip now).2
  | .cleanupOp now => cleanupVisitors rl now

/-- A sequence of rate-limiter events. -/
def rlRun (rl : RateLimiter) (ops : List RLOp) : RateLimiter :=
  ops.foldl rlStep rl

/-- Claim C7's invariant: every visitor holds between `0` and `rate` tokens. -/
def TokensInv (rl : RateLimiter) : Prop :=
  ∀ ip v, rl.visitors ip = some v → 0 ≤ v.tokens ∧ v.tokens ≤ rl.rate

/-! ### HTTP layer: requests, responses, handlers (`internal/handlers`),
middleware pipeline (`internal/middleware`), router and wiring (`cmd/api`) -/

/-- `models.CreateTaskRequest` (`{title: string}`). -/
structure CreateTaskRequest where
  title : String
deriving Repr, DecidableEq

/-- `models.UpdateTaskRequest` (`{done: bool}`). -/
structure UpdateTaskRequest where
  done : Bool
deriving Repr, DecidableEq

/-- An inbound HTTP request, with the pieces the service reads.  The JSON
body is abstracted by its decode results (`none` = `Decode` fails); `now` is
the arrival time seen by the rate limiter; a header absent in Go's
`Header.Get` is the empty string. -/
structure Request where
  method : String
  path : String
  queryId : String
  queryDone : String
  createBody : Option CreateTaskRequest
  updateBody : Option UpdateTaskRequest
  apiKey : String
  remoteAddr : String
  now : Nat
  ctxRequestID : Option String
deriving Repr, DecidableEq

/-- A response body: the data the source passes to `json.NewEncoder.Encode`
(or writes literally, for `/health` and the router's 404). -/
inductive Body where
  | errJson (msg : String)
  | taskJson (t : Models.Task)
  | tasksJson (ts : List Models.Task)
  | successJson (updated : Bool)
  | raw (s : String)
deriving Repr, DecidableEq

/-- An HTTP response: status code, headers, body. -/
structure Response where
  status : Nat
  headers : List (String × String)
  body : Body
deriving Repr, DecidableEq

/-- `Header().Set k v`. -/
def setHeader (hs : List (String × String)) (k v : String) : List (String × String) :=
  (k, v) :: hs.filter (fun p => p.1 != k)

/-- `Header().Get k` (`none` when the header is absent). -/
def headerGet (hs : List (String × String)) (k : String) : Option String :=
  List.lookup k hs

/-- `handlers.respondJSON`: sets `Content-Type`, writes the status and the
encoded body. -/
def respondJSON (status : Nat) (body : Body) : Response :=
  { status := status, headers := [("Content-Type", "application/json")], body := body }

/-- `strconv.Atoi`. -/
def atoi (s : String) : Option Int :=
  s.toInt?

/-- `strconv.ParseBool`, accepting exactly Go's spellings. -/
def parseBool (s : String) : Option Bool :=
  if s = "1" ∨ s = "t" ∨ s = "T" ∨ s = "TRUE" ∨ s = "true" ∨ s = "True" then some true
  else if s = "0" ∨ s = "f" ∨ s = "F" ∨ s = "FALSE" ∨ s = "false" ∨ s = "False" then some false
  else none

/-- `strings.TrimSpace`: strip leading and trailing whitespace. -/
def trimSpace (s : String) : String :=
  String.mk (((s.data.dropWhile Char.isWhitespace).reverse.dropWhile Char.isWhitespace).reverse)

/-- `handlers.MaxTitleLength`. -/
def maxTitleLength : Nat := 200

/-- A task handler reads the request and the store it owns
(`TaskHandler.store`). -/
abbrev StoreHandler := Request → StoreState → Response × StoreState

/-- `TaskHandler.GetAllTasks`. -/
def GetAllTasksH : StoreHandler := fun req s =>
  if req.queryDone = "" then
    let p := GetAll s
    (respondJSON 200 (.tasksJson (p.1.map (derefTask p.2))), p.2)
  else
    match parseBool req.queryDone with
    | none => (respondJSON 400 (.errJson "invalid done parameter"), s)
    | some d =>
      let p := GetByStatus s d
      (respondJSON 200 (.tasksJson (p.1.map (derefTask p.2))), p.2)

/-- `TaskHandler.GetTask`. -/
def GetTaskH : StoreHandler := fun req s =>
  if req.queryId = "" then GetAllTasksH req s
  else
    match atoi req.queryId with
    | none => (respondJSON 400 (.errJson "invalid id"), s)
    | some id =>
      if id ≤ 0 then (respondJSON 400 (.errJson "invalid id"), s)
      else
        match GetByID s id with
        | (none, s') => (respondJSON 404 (.errJson "task not found"), s')
        | (some r, s') => (respondJSON 200 (.taskJson (derefTask s' r)), s')

/-- `TaskHandler.CreateTask`: decode, trim, reject empty or over-long titles
(`len` is the byte length), otherwise create and return the new record. -/
def CreateTaskH : StoreHandler := fun req s =>
  match req.createBody with
  | none => (respondJSON 400 (.errJson "invalid request body"), s)
  | some body =>
    let title := trimSpace body.title
    if title = "" then (respondJSON 400 (.errJson "invalid title"), s)
    else if maxTitleLength < title.utf8ByteSize then
      (respondJSON 400
        (.errJson ("title exceeds maximum length of " ++ natRepr maxTitleLength ++ " characters")), s)
    else
      let p := Create s title
      (respondJSON 201 (.taskJson (derefTask p.2 p.1)), p.2)

/-- `TaskHandler.UpdateTask`. -/
def UpdateTaskH : StoreHandler := fun req s =>
  if req.queryId = "" then
    (respondJSON 400 (.errJson "id parameter is required"), s)
  else
    match atoi req.queryId with
    | none => (respondJSON 400 (.errJson "invalid id"), s)
    | some id =>
      if id ≤ 0 then (respondJSON 400 (.errJson "invalid id"), s)
      else
        match req.updateBody with
        | none => (respondJSON 400 (.errJson "invalid request body"), s)
        | some body =>
          match Update s id body.done with
          | (false, s') => (respondJSON 404 (.errJson "task not found"), s')
          | (true, s') => (respondJSON 200 (.successJson true), s')

/-- `TaskHandler.DeleteTask`. -/
def DeleteTaskH : StoreHandler := fun req s =>
  if req.queryId = "" then
    (respondJSON 400 (.errJson "id parameter is required"), s)
  else
    match atoi req.queryId with
    | none => (respondJSON 400 (.errJson "invalid id"), s)
    | some id =>
      if id ≤ 0 then (respondJSON 400 (.errJson "invalid id"), s)
      else
        match Delete s id with
        | (false, s') => (respondJSON 404 (.errJson "task not found"), s')
        | (true, s') => (respondJSON 200 (.successJson true), s')

/-- The `/health` handler registered in `main`. -/
def HealthH : StoreHandler := fun _ s =>
  ({ status := 200,
     headers := [("Content-Type", "application/json")],
     body := .raw "\x7b\"status\":\"healthy\"\x7d" }, s)

/-- The router built in `main` (`router.NewRouter` + the five registrations),
dispatching on exact method and path; anything else is `http.NotFound`. -/
def routerCore : StoreHandler := fun req s =>
  match req.method, req.path with
  | "GET", "/v1/tasks" => GetTaskH req s
  | "POST", "/v1/tasks" => CreateTaskH req s
  | "PATCH", "/v1/tasks" => UpdateTaskH req s
  | "DELETE", "/v1/tasks" => DeleteTaskH req s
  | "GET", "/health" => HealthH req s
  | _, _ =>
    ({ status := 404,
       headers := [("Content-Type", "text/plain; charset=utf-8")],
       body := .raw "404 page not found" }, s)

/-- The mutable state the pipeline touches: the request-ID counter, the rate
limiter and the task store. -/
structure Sys where
  counter : Nat
  rl : RateLimiter
  store : StoreState

/-- An `http.Handler` over the system state. -/
abbrev Handler := Request → Sys → Response × Sys

/-- A `func(http.Handler) http.Handler`. -/
abbrev Middleware := Handler → Handler

/-- Lift a store-only handler: task handlers touch nothing but the store. -/
def storeLift (f : StoreHandler) : Handler := fun req s =>
  let p := f req s.store
  (p.1, { s with store := p.2 })

/-- The router as an `http.Handler`. -/
def routerHandler : Handler :=
  storeLift routerCore

/-- `middleware.Logger`: wraps the writer to capture the status and logs
after the inner chain returns — observable output is the inner result. -/
def Logger : Middleware := fun next req s =>
  next req s

/-- `middleware.RequestID`: bumps the process-wide counter under its mutex,
formats `req-%d`, attaches it to the request context and to the
`X-Request-ID` response header. -/
def RequestID : Middleware := fun next req s =>
  let counter' := s.counter + 1
  let reqID := "req-" ++ natRepr counter'
  let p := next { req with ctxRequestID := some reqID } { s with counter := counter' }
  ({ p.1 with headers := setHeader p.1.headers "X-Request-ID" reqID }, p.2)

/-- `RateLimiter.Limit`: identity is `r.RemoteAddr`; a denied request gets
`429 {"error":"rate limit exceeded"}` and the inner handler never runs. -/
def Limit : Middleware := fun next req s =>
  let p := allow s.rl req.remoteAddr req.now
  if p.1 then next req { s with rl := p.2 }
  else
    ({ status := 429,
       headers := [("Content-Type", "application/json")],
       body := .errJson "rate limit exceeded" }, { s with rl := p.2 })

/-- `middleware.APIKeyAuth`: requires `X-API-KEY` to be non-empty and in the
allow-list, else `401 {"error":"unauthorized"}` without running the inner
handler. -/
def APIKeyAuth (validKeys : String → Bool) : Middleware := fun next req s =>
  if req.apiKey == "" || !validKeys req.apiKey then
    ({ status := 401,
       headers := [("Content-Type", "application/json")],
       body := .errJson "unauthorized" }, s)
  else next req s

/-- `middleware.Chain`: the loop `for i := len(ms)-1; i >= 0; i-- final = ms[i](final)`. -/
def Chain (ms : List Middleware) : Middleware := fun final =>
  ms.foldr (fun m acc => m acc) final

/-- The static allow-list `validAPIKeys` from `main`. -/
def validKeysMain (k : String) : Bool :=
  k == "secret12345" || k == "dev-key-001" || k == "production-key-1"

/-- The full handler assembled in `main`. -/
def app : Handler :=
  Chain [Logger, RequestID, Limit, APIKeyAuth validKeysMain] routerHandler

/-- Process start state: fresh store, rate limiter with 10 requests/minute,
request-ID counter at zero. -/
def initSys : Sys :=
  { counter := 0, rl := newRateLimiter 10, store := newTaskStore }

/-- Serve a list of requests in order, collecting the responses. -/
def processAll (s : Sys) : List Request → List Response × Sys
  | [] => ([], s)
  | req :: reqs =>
    let p := app req s
    let q := processAll p.2 reqs
    (p.1 :: q.1, q.2)

/-! ### Operation traces used by the store and rate-limiter claims -/

/-- A call to one of the store's public operations. -/
inductive StoreOpK where
  | createOp (title : String)
  | getByIdOp (id : Int)
  | getAllOp
  | getByStatusOp (done : Bool)
  | updateOp (id : Int) (done : Bool)
  | deleteOp (id : Int)

/-- The id field of the record a `Create` call hands back. -/
def derefId (s : StoreState) (r : Ref) : Int :=
  (derefTask s r).id

/-- Run a sequence of store operations, collecting the ids of the records
returned by the `Create` calls in order. -/
def runCreatedIds (s : StoreState) : List StoreOpK → List Int
  | [] => []
  | op :: rest =>
    match op with
    | .createOp title =>
      let p := Create s title
      derefId p.2 p.1 :: runCreatedIds p.2 rest
    | .getByIdOp id => runCreatedIds (GetByID s id).2 rest
    | .getAllOp => runCreatedIds (GetAll s).2 rest
    | .getByStatusOp d => runCreatedIds (GetByStatus s d).2 rest
    | .updateOp id d => runCreatedIds (Update s id d).2 rest
    | .deleteOp id => runCreatedIds (Delete s id).2 rest

/-- Number of `Create` calls in a trace. -/
def countCreates (ops : List StoreOpK) : Nat :=
  ops.countP fun op => match op with | .createOp _ => true | _ => false

/-- `[a, a+1, ..., a+n-1]` over `Int`. -/
def idSeq (a : Int) : Nat → List Int
  | 0 => []
  | n + 1 => a :: idSeq (a + 1) n

/-- Verdicts of `n` gated decrements starting from `tk` tokens. -/
def spend (tk : Int) : Nat → List Bool
  | 0 => []
  | n + 1 => decide (0 < tk) :: spend (if 0 < tk then tk - 1 else tk) n

/-- Tokens left after `n` gated decrements starting from `tk`. -/
def tokensAfter (tk : Int) : Nat → Int
  | 0 => tk
  | n + 1 => tokensAfter (if 0 < tk then tk - 1 else tk) n

/-- `"req-%d"` of the request-ID counter value. -/
def mkReqID (n : Nat) : String :=
  "req-" ++ natRepr n

/-- A 201-byte title of `'a'` characters. -/
def longTitle : String :=
  String.mk (List.replicate 201 'a')

/-- A `GET /health` request carrying no `X-API-KEY`. -/
def healthReqNoKey : Request :=
  { method := "GET", path := "/health", queryId := "", queryDone := "",
    createBody := none, updateBody := none, apiKey := "",
    remoteAddr := "192.0.2.1:1234", now := 0, ctxRequestID := none }

/-- A `GET /health` request carrying an allow-listed key. -/
def healthReqWithKey : Request :=
  { healthReqNoKey with apiKey := "secret12345" }

/-- A `POST /v1/tasks` request whose decoded body holds the 201-`'a'` title. -/
def createReqLong : Request :=
  { healthReqNoKey with
    method := "POST", path := "/v1/tasks",
    apiKey := "secret12345", createBody := some { title := longTitle } }

/-- A `POST /v1/tasks` request whose decoded body holds `"buy milk"`. -/
def createReqMilk : Request :=
  { createReqLong with createBody := some { title := "buy milk" } }

/-! ### Basic lemmas about the embedded operations -/
/-! ### Basic lemmas about the embedded operations -/

theorem digitsVal_append_singleton (l : List Char) (c : Char) :
    digitsVal (l ++ [c]) = digitsVal l * 10 + (c.toNat - 48) := by
  simp [digitsVal, List.foldl_append]

theorem digitChar_val : ∀ d : Nat, d < 10 → (Nat.digitChar d).toNat - 48 = d := by
  decide

theorem digitsVal_natDigitsAux :
    ∀ (fuel n : Nat), n < fuel → digitsVal (natDigitsAux fuel n) = n := by
  intro fuel
  induction fuel with
  | zero => intro n hn; omega
  | succ fuel ih =>
    intro n hn
    rw [natDigitsAux]
    split
    · next h =>
      simp [digitsVal, digitChar_val n h]
    · next h =>
      rw [digitsVal_append_singleton, ih (n / 10) (by omega),
        digitChar_val (n % 10) (by omega)]
      omega

theorem digitsVal_natDigits (n : Nat) : digitsVal (natDigits n) = n :=
  digitsVal_natDigitsAux (n + 1) n (Nat.lt_succ_self n)

theorem natDigits_injective : Function.Injective natDigits := by
  intro m n h
  have := congrArg digitsVal h
  rwa [digitsVal_natDigits, digitsVal_natDigits] at this

theorem natRepr_injective : Function.Injective natRepr := by
  intro m n h
  apply natDigits_injective
  have : (natDigits m).asString.data = (natDigits n).asString.data := congrArg String.data h
  simpa [List.asString] using this

theorem setVisitor_self (rl : RateLimiter) (ip : String) (v : Visitor) :
    (setVisitor rl ip v).visitors ip = some v := by
  simp [setVisitor]

theorem setVisitor_rate (rl : RateLimiter) (ip : String) (v : Visitor) :
    (setVisitor rl ip v).rate = rl.rate := rfl

/-- `allow` on an identity whose visitor is inside its window: no refill,
gated decrement, `lastSeen` stamped. -/
theorem allow_in_window (rl : RateLimiter) (ip : String) (v : Visitor) (now : Nat)
    (hv : rl.visitors ip = some v) (hw : now - v.lastRefill < minute) :
    allow rl ip now =
      (decide (0 < v.tokens),
       setVisitor rl ip
         { tokens := if 0 < v.tokens then v.tokens - 1 else v.tokens,
           lastSeen := now, lastRefill := v.lastRefill }) := by
  have : ¬ minute ≤ now - v.lastRefill := by omega
  by_cases h : 0 < v.tokens <;>
    simp [allow, getVisitor, hv, this, h]

/-- `allow` on an identity whose window has elapsed: refill to full capacity,
reset the window start, then the gated decrement. -/
theorem allow_refill (rl : RateLimiter) (ip : String) (v : Visitor) (now : Nat)
    (hv : rl.visitors ip = some v) (hw : minute ≤ now - v.lastRefill) :
    allow rl ip now =
      (decide (0 < rl.rate),
       setVisitor rl ip
         { tokens := if 0 < rl.rate then rl.rate - 1 else rl.rate,
           lastSeen := now, lastRefill := now }) := by
  by_cases h : 0 < rl.rate <;>
    simp [allow, getVisitor, hv, hw, h]

/-- `allow` on a fresh identity: lazy creation with a full bucket at window
start `now`, then the gated decrement. -/
theorem allow_fresh (rl : RateLimiter) (ip : String) (now : Nat)
    (hv : rl.visitors ip = none) :
    allow rl ip now =
      (decide (0 < rl.rate),
       setVisitor rl ip
         { tokens := if 0 < rl.rate then rl.rate - 1 else rl.rate,
           lastSeen := now, lastRefill := now }) := by
  by_cases h : 0 < rl.rate <;>
    simp [allow, getVisitor, hv, setVisitor, minute, h] <;>
    (funext k; by_cases hk : k = ip <;> simp [hk])

/-- Running `allow` at timestamps inside the visitor's current window spends
tokens one by one (gated), never refills, and keeps the window start. -/
theorem allowTimes_in_window :
    ∀ (ts : List Nat) (rl : RateLimiter) (v : Visitor) (ip : String),
      rl.visitors ip = some v →
      (∀ u ∈ ts, u - v.lastRefill < minute) →
      (allowTimes rl ip ts).1 = spend v.tokens ts.length ∧
      (allowTimes rl ip ts).2.rate = rl.rate ∧
      ∃ ls, (allowTimes rl ip ts).2.visitors ip =
        some { tokens := tokensAfter v.tokens ts.length,
               lastSeen := ls, lastRefill := v.lastRefill } := by
  intro ts
  induction ts with
  | nil =>
    intro rl v ip hv _
    refine ⟨rfl, rfl, v.lastSeen, ?_⟩
    simpa [allowTimes, tokensAfter] using hv
  | cons t ts ih =>
    intro rl v ip hv hw
    have hwt : t - v.lastRefill < minute := hw t (List.mem_cons_self t ts)
    have hstep := allow_in_window rl ip v t hv hwt
    obtain ⟨h1, h2, ls, h3⟩ :=
      ih (setVisitor rl ip
            { tokens := if 0 < v.tokens then v.tokens - 1 else v.tokens,
              lastSeen := t, lastRefill := v.lastRefill })
         { tokens := if 0 < v.tokens then v.tokens - 1 else v.tokens,
           lastSeen := t, lastRefill := v.lastRefill }
         ip (setVisitor_self _ _ _)
         (fun u hu => hw u (List.mem_cons_of_mem t hu))
    refine ⟨?_, ?_, ls, ?_⟩
    · simp [allowTimes, hstep, spend, h1]
    · simp [allowTimes, hstep, setVisitor_rate] at h2 ⊢
      exact h2
    · simp [allowTimes, hstep, tokensAfter] at h3 ⊢
      exact h3

/-- C1: with capacity 10 and a fresh identity, the first call (at window
start `t`) and the nine further in-window calls return `true`, the 11th
in-window call returns `false`; a call at any `t' ≥ t + 60` refills the
bucket to full capacity, resets the window start to `t'`, and is allowed
(the stored visitor afterwards holds `10 - 1 = 9` tokens and window start
`t'`). -/
theorem C1_rate_limiter_window (ip : String) (t t' : Nat) (ts : List Nat)
    (hlen : ts.length = 10)
    (hwin : ∀ u ∈ ts, t ≤ u ∧ u < t + 60)
    (ht' : t + 60 ≤ t') :
    (allow (newRateLimiter 10) ip t).1 = true ∧
    (allowTimes (allow (newRateLimiter 10) ip t).2 ip ts).1
        = List.replicate 9 true ++ [false] ∧
    (allow (allowTimes (allow (newRateLimiter 10) ip t).2 ip ts).2 ip t').1 = true ∧
    (allow (allowTimes (allow (newRateLimiter 10) ip t).2 ip ts).2 ip t').2.visitors ip
        = some { tokens := 9, lastSeen := t', lastRefill := t' } := by
  have hfresh := allow_fresh (newRateLimiter 10) ip t rfl
  have hfirst : (allow (newRateLimiter 10) ip t).1 = true := by
    rw [hfresh]; rfl
  have hstate : (allow (newRateLimiter 10) ip t).2 =
      setVisitor (newRateLimiter 10) ip { tokens := 9, lastSeen := t, lastRefill := t } := by
    rw [hfresh]; norm_num [newRateLimiter]
  rw [hstate]
  obtain ⟨h1, h2, ls, h3⟩ :=
    allowTimes_in_window ts
      (setVisitor (newRateLimiter 10) ip { tokens := 9, lastSeen := t, lastRefill := t })
      { tokens := 9, lastSeen := t, lastRefill := t } ip
      (setVisitor_self _ _ _)
      (fun u hu => by have := hwin u hu; simp only [minute]; omega)
  rw [hlen] at h1 h3
  have htk : tokensAfter (9 : Int) 10 = 0 := by decide
  simp only [htk] at h3
  have hrate2 : (allowTimes
      (setVisitor (newRateLimiter 10) ip { tokens := 9, lastSeen := t, lastRefill := t })
      ip ts).2.rate = 10 := by
    rw [h2]; rfl
  have hlast := allow_refill
      (allowTimes
        (setVisitor (newRateLimiter 10) ip { tokens := 9, lastSeen := t, lastRefill := t })
        ip ts).2 ip
      { tokens := 0, lastSeen := ls, lastRefill := t } t' h3
      (by simp only [minute]; omega)
  refine ⟨hfirst, ?_, ?_, ?_⟩
  · rw [h1]; rfl
  · rw [hlast, hrate2]; rfl
  · rw [hlast, hrate2]
    norm_num [setVisitor_self]

/-- Witness for C1 at a concrete run: identity `"a"`, first call at `t = 0`,
ten further calls at time `0`, refill call at `t' = 60`. -/
theorem C1_witness :
    (allow (newRateLimiter 10) "a" 0).1 = true ∧
    (allowTimes (allow (newRateLimiter 10) "a" 0).2 "a" [0, 0, 0, 0, 0, 0, 0, 0, 0, 0]).1
        = List.replicate 9 true ++ [false] ∧
    (allow (allowTimes (allow (newRateLimiter 10) "a" 0).2 "a"
        [0, 0, 0, 0, 0, 0, 0, 0, 0, 0]).2 "a" 60).1 = true ∧
    (allow (allowTimes (allow (newRateLimiter 10) "a" 0).2 "a"
        [0, 0, 0, 0, 0, 0, 0, 0, 0, 0]).2 "a" 60).2.visitors "a"
        = some { tokens := 9, lastSeen := 60, lastRefill := 60 } :=
  C1_rate_limiter_window "a" 0 60 [0, 0, 0, 0, 0, 0, 0, 0, 0, 0]
    rfl (by decide) (by decide)

theorem allow_rate (rl : RateLimiter) (ip : String) (now : Nat) :
    (allow rl ip now).2.rate = rl.rate := by
  rcases hv : rl.visitors ip with _ | v
  · rw [allow_fresh rl ip now hv]; rfl
  · by_cases hw : minute ≤ now - v.lastRefill
    · rw [allow_refill rl ip v now hv hw]; rfl
    · rw [allow_in_window rl ip v now hv (by omega)]; rfl

theorem TokensInv_setVisitor (rl : RateLimiter) (ip : String) (v : Visitor)
    (hinv : TokensInv rl) (h0 : 0 ≤ v.tokens) (h1 : v.tokens ≤ rl.rate) :
    TokensInv (setVisitor rl ip v) := by
  intro k w hk
  by_cases hki : k = ip
  · subst hki
    rw [setVisitor_self] at hk
    cases hk
    exact ⟨h0, h1⟩
  · simp only [setVisitor] at hk
    rw [if_neg hki] at hk
    exact hinv k w hk

theorem allow_TokensInv (rl : RateLimiter) (ip : String) (now : Nat)
    (hr : 0 ≤ rl.rate) (hinv : TokensInv rl) : TokensInv (allow rl ip now).2 := by
  rcases hv : rl.visitors ip with _ | v
  · rw [allow_fresh rl ip now hv]
    apply TokensInv_setVisitor _ _ _ hinv <;> dsimp <;> split <;> omega
  · by_cases hw : minute ≤ now - v.lastRefill
    · rw [allow_refill rl ip v now hv hw]
      apply TokensInv_setVisitor _ _ _ hinv <;> dsimp <;> split <;> omega
    · rw [allow_in_window rl ip v now hv (by omega)]
      obtain ⟨h0, h1⟩ := hinv ip v hv
      apply TokensInv_setVisitor _ _ _ hinv <;> dsimp <;> split <;> omega

theorem cleanup_TokensInv (rl : RateLimiter) (now : Nat)
    (hinv : TokensInv rl) : TokensInv (cleanupVisitors rl now) := by
  intro k w hk
  change (match rl.visitors k with
    | some v => if rl.cleanup < now - v.lastSeen then none else some v
    | none => none) = some w at hk
  cases hv : rl.visitors k with
  | none =>
    rw [hv] at hk
    dsimp only at hk
    cases hk
  | some v =>
    rw [hv] at hk
    dsimp only at hk
    split at hk
    · cases hk
    · injection hk with h
      subst h
      exact hinv k v hv

theorem rlStep_rate (rl : RateLimiter) (op : RLOp) :
    (rlStep rl op).rate = rl.rate := by
  cases op with
  | allowOp ip now => exact allow_rate rl ip now
  | cleanupOp now => rfl

theorem rlStep_TokensInv (rl : RateLimiter) (op : RLOp)
    (hr : 0 ≤ rl.rate) (hinv : TokensInv rl) : TokensInv (rlStep rl op) := by
  cases op with
  | allowOp ip now => exact allow_TokensInv rl ip now hr hinv
  | cleanupOp now => exact cleanup_TokensInv rl now hinv

theorem rlRun_TokensInv :
    ∀ (ops : List RLOp) (rl : RateLimiter), 0 ≤ rl.rate → TokensInv rl →
      TokensInv (rlRun rl ops) := by
  intro ops
  induction ops with
  | nil => intro rl _ hinv; exact hinv
  | cons op ops ih =>
    intro rl hr hinv
    exact ih (rlStep rl op) (by rw [rlStep_rate]; exact hr) (rlStep_TokensInv rl op hr hinv)

/-- C7: in every rate-limiter state reachable from `NewRateLimiter r`
(for a nonnegative configured capacity `r`) by `allow` calls and eviction
sweeps, every visitor holds between `0` and `r` tokens; lazy creation hands
back a visitor with exactly `rate` tokens. -/
theorem C7_tokens_bounded (r : Int) (hr : 0 ≤ r) (ops : List RLOp) :
    TokensInv (rlRun (newRateLimiter r) ops) ∧
    (∀ (rl : RateLimiter) (ip : String) (now : Nat),
      rl.visitors ip = none → ((getVisitor rl ip now).1).tokens = rl.rate) := by
  constructor
  · exact rlRun_TokensInv ops (newRateLimiter r) hr (fun ip v hv => by cases hv)
  · intro rl ip now hv
    simp [getVisitor, hv]

/-- Witness for C7: capacity 10, a run with two `allow` calls and an
eviction sweep. -/
theorem C7_witness :
    TokensInv (rlRun (newRateLimiter 10)
      [.allowOp "a" 0, .allowOp "a" 5, .cleanupOp 400]) ∧
    (∀ (rl : RateLimiter) (ip : String) (now : Nat),
      rl.visitors ip = none → ((getVisitor rl ip now).1).tokens = rl.rate) :=
  C7_tokens_bounded 10 (by decide) [.allowOp "a" 0, .allowOp "a" 5, .cleanupOp 400]

/-! ### Store lemmas -/

theorem heapSet_self (h : Ref → Option Models.Task) (r : Ref) (t : Models.Task) :
    heapSet h r t r = some t := by
  simp [heapSet]

theorem heapSet_other (h : Ref → Option Models.Task) (r r' : Ref) (t : Models.Task)
    (hne : r' ≠ r) : heapSet h r t r' = h r' := by
  simp [heapSet, hne]

theorem Create_eq (s : StoreState) (title : String) :
    Create s title =
      (s.nextRef,
       { heap := heapSet s.heap s.nextRef { id := s.nextID, title := title, done := false },
         nextRef := s.nextRef + 1,
         tasks := mapInsert s.tasks s.nextID s.nextRef,
         nextID := s.nextID + 1 }) := rfl

theorem foldl_preserves_nextID {α : Type}
    (f : (List Ref × StoreState) → α → (List Ref × StoreState))
    (hf : ∀ acc a, (f acc a).2.nextID = acc.2.nextID) :
    ∀ (l : List α) (acc : List Ref × StoreState),
      (l.foldl f acc).2.nextID = acc.2.nextID := by
  intro l
  induction l with
  | nil => intro acc; rfl
  | cons a l ih => intro acc; rw [List.foldl_cons, ih, hf]

theorem GetByID_nextID (s : StoreState) (id : Int) :
    (GetByID s id).2.nextID = s.nextID := by
  unfold GetByID
  split
  · rfl
  · split
    · rfl
    · rfl

theorem GetAll_nextID (s : StoreState) :
    (GetAll s).2.nextID = s.nextID := by
  unfold GetAll
  exact foldl_preserves_nextID _
    (fun acc p => by dsimp only; cases h : acc.2.heap p.2 <;> simp [h, alloc])
    s.tasks ([], s)

theorem GetByStatus_nextID (s : StoreState) (d : Bool) :
    (GetByStatus s d).2.nextID = s.nextID := by
  unfold GetByStatus
  exact foldl_preserves_nextID _
    (fun acc p => by
      dsimp only
      cases h : acc.2.heap p.2
      · simp [h]
      · simp only [h]
        split <;> simp [alloc])
    s.tasks ([], s)

theorem Update_nextID (s : StoreState) (id : Int) (d : Bool) :
    (Update s id d).2.nextID = s.nextID := by
  unfold Update
  split
  · rfl
  · split
    · rfl
    · rfl

theorem Delete_nextID (s : StoreState) (id : Int) :
    (Delete s id).2.nextID = s.nextID := by
  unfold Delete
  split
  · rfl
  · rfl

theorem idSeq_mem : ∀ (n : Nat) (a x : Int), x ∈ idSeq a n → a ≤ x := by
  intro n
  induction n with
  | zero => intro a x hx; cases hx
  | succ n ih =>
    intro a x hx
    rcases List.mem_cons.mp hx with h | h
    · omega
    · have := ih (a + 1) x h
      omega

theorem idSeq_pairwise : ∀ (n : Nat) (a : Int), (idSeq a n).Pairwise (· < ·) := by
  intro n
  induction n with
  | zero => intro a; exact List.Pairwise.nil
  | succ n ih =>
    intro a
    exact List.Pairwise.cons (fun x hx => by have := idSeq_mem n (a + 1) x hx; omega) (ih (a + 1))

theorem runCreatedIds_eq : ∀ (ops : List StoreOpK) (s : StoreState),
    runCreatedIds s ops = idSeq s.nextID (countCreates ops) := by
  intro ops
  induction ops with
  | nil => intro s; rfl
  | cons op rest ih =>
    intro s
    cases op with
    | createOp title =>
      have hcnt : countCreates (.createOp title :: rest) = countCreates rest + 1 := by
        simp [countCreates, List.countP_cons]
      rw [hcnt]
      have hid : derefId (Create s title).2 (Create s title).1 = s.nextID := by
        rw [Create_eq]
        simp [derefId, derefTask, heapSet_self]
      simp only [runCreatedIds, hid, idSeq, ih]
      rw [Create_eq]
    | getByIdOp id =>
      have hcnt : countCreates (.getByIdOp id :: rest) = countCreates rest := by
        simp [countCreates, List.countP_cons]
      simp only [runCreatedIds, hcnt, ih, GetByID_nextID]
    | getAllOp =>
      have hcnt : countCreates (.getAllOp :: rest) = countCreates rest := by
        simp [countCreates, List.countP_cons]
      simp only [runCreatedIds, hcnt, ih, GetAll_nextID]
    | getByStatusOp d =>
      have hcnt : countCreates (.getByStatusOp d :: rest) = countCreates rest := by
        simp [countCreates, List.countP_cons]
      simp only [runCreatedIds, hcnt, ih, GetByStatus_nextID]
    | updateOp id d =>
      have hcnt : countCreates (.updateOp id d :: rest) = countCreates rest := by
        simp [countCreates, List.countP_cons]
      simp only [runCreatedIds, hcnt, ih, Update_nextID]
    | deleteOp id =>
      have hcnt : countCreates (.deleteOp id :: rest) = countCreates rest := by
        simp [countCreates, List.countP_cons]
      simp only [runCreatedIds, hcnt, ih, Delete_nextID]

/-- C2: over any sequence of store operations starting from a fresh store,
the ids handed back by the `Create` calls are exactly `1, 2, 3, ...` in
order — strictly increasing from `1` — and no id is ever handed out twice,
deletions included (`Delete` never touches `nextID`). -/
theorem C2_ids_strictly_increasing (ops : List StoreOpK) :
    runCreatedIds newTaskStore ops = idSeq 1 (countCreates ops) ∧
    (runCreatedIds newTaskStore ops).Chain' (· < ·) ∧
    (runCreatedIds newTaskStore ops).Nodup := by
  have heq := runCreatedIds_eq ops newTaskStore
  have hpw : (runCreatedIds newTaskStore ops).Pairwise (· < ·) := by
    rw [heq]; exact idSeq_pairwise _ _
  refine ⟨heq, ?_, ?_⟩
  · exact List.chain'_iff_pairwise.mpr hpw
  · exact hpw.imp ne_of_lt

/-- C6: `Update(id, true)` on a present id succeeds and a subsequent
`GetByID(id)` hands back a record with `done = true`; on an absent id it
fails with `NotFound` and returns the store completely unchanged. -/
theorem C6_update_semantics (s : StoreState) (id : Int) :
    (∀ (r : Ref) (t : Models.Task),
      List.lookup id s.tasks = some r → s.heap r = some t →
      (Update s id true).1 = true ∧
      ∃ r', (GetByID (Update s id true).2 id).1 = some r' ∧
        (GetByID (Update s id true).2 id).2.heap r' = some { t with done := true } ∧
        derefTask (GetByID (Update s id true).2 id).2 r' = { t with done := true }) ∧
    (List.lookup id s.tasks = none → Update s id true = (false, s)) := by
  constructor
  · intro r t hr ht
    have hupd : Update s id true =
        (true, { s with heap := heapSet s.heap r { t with done := true } }) := by
      simp [Update, hr, ht]
    rw [hupd]
    refine ⟨rfl, s.nextRef, ?_, ?_, ?_⟩
    · simp [GetByID, hr, heapSet_self, alloc]
    · simp [GetByID, hr, heapSet_self, alloc]
    · simp [GetByID, hr, heapSet_self, alloc, derefTask]
  · intro h
    simp [Update, h]

/-- Witness for C6 on a concrete store: one task with id 1; updating id 1
succeeds and reads back done, updating the fresh (empty) store fails. -/
theorem C6_witness :
    ((Update (Create newTaskStore "x").2 1 true).1 = true ∧
     ∃ r', (GetByID (Update (Create newTaskStore "x").2 1 true).2 1).1 = some r' ∧
       (GetByID (Update (Create newTaskStore "x").2 1 true).2 1).2.heap r'
           = some { id := 1, title := "x", done := true } ∧
       derefTask (GetByID (Update (Create newTaskStore "x").2 1 true).2 1).2 r'
           = { id := 1, title := "x", done := true }) ∧
    Update newTaskStore 1 true = (false, newTaskStore) := by
  constructor
  · exact (C6_update_semantics (Create newTaskStore "x").2 1).1 0
      { id := 1, title := "x", done := false } (by decide) rfl
  · exact (C6_update_semantics newTaskStore 1).2 rfl

/-- C10: the store's `Create` validates nothing and never fails — for every
title, empty or over-long included, it inserts and hands back a record with
exactly that title and `done = false`; the non-empty and ≤200-byte checks
happen only in the HTTP handler (`CreateTask` rejects them with 400 without
touching the store). -/
theorem C10_create_never_validates :
    (∀ (s : StoreState) (title : String),
      (Create s title).2.heap (Create s title).1
          = some { id := s.nextID, title := title, done := false } ∧
      List.lookup s.nextID (Create s title).2.tasks = some (Create s title).1 ∧
      derefTask (Create s title).2 (Create s title).1
          = { id := s.nextID, title := title, done := false }) ∧
    (∀ (s : StoreState), (CreateTaskH createReqLong s).1.status = 400 ∧
      (CreateTaskH createReqLong s).2 = s) ∧
    (∀ (s : StoreState),
      (CreateTaskH { createReqLong with createBody := some { title := "" } } s).1.status = 400 ∧
      (CreateTaskH { createReqLong with createBody := some { title := "" } } s).2 = s) := by
  refine ⟨?_, ?_, ?_⟩
  · intro s title
    rw [Create_eq]
    refine ⟨heapSet_self _ _ _, ?_, ?_⟩
    · simp [mapInsert]
    · simp [derefTask, heapSet_self]
  · intro s
    constructor <;> rfl
  · intro s
    constructor <;> rfl

theorem mem_of_lookup_eq_some :
    ∀ (l : List (Int × Ref)) (id : Int) (r : Ref),
      List.lookup id l = some r → (id, r) ∈ l := by
  intro l
  induction l with
  | nil => intro id r h; cases h
  | cons p l ih =>
    intro id r h
    obtain ⟨k, v⟩ := p
    simp only [List.lookup] at h
    by_cases hbk : (id == k) = true
    · rw [hbk] at h
      dsimp only at h
      injection h with hv
      subst hv
      have : id = k := eq_of_beq hbk
      subst this
      exact List.mem_cons_self _ _
    · rw [Bool.not_eq_true] at hbk
      rw [hbk] at h
      dsimp only at h
      exact List.mem_cons_of_mem _ (ih id r h)

/-- `GetAll` is the copy loop with the constantly-true filter. -/
theorem GetAll_eq_fold (s : StoreState) :
    GetAll s = s.tasks.foldl (getStep (fun _ => true)) ([], s) := rfl

/-- `GetByStatus` is the copy loop filtered on the `done` flag. -/
theorem GetByStatus_eq_fold (s : StoreState) (d : Bool) :
    GetByStatus s d = s.tasks.foldl (getStep (fun t => t.done == d)) ([], s) := rfl

/-- Running the copy loop over entries whose refs are all below `st.nextRef`:
the map and id counter are untouched, existing cells are untouched, every
returned ref is fresh (`≥ st.nextRef`), and the returned refs hold copies of
exactly the kept records. -/
theorem getStep_fold_spec (keep : Models.Task → Bool) :
    ∀ (l : List (Int × Ref)) (rs : List Ref) (st : StoreState),
      (∀ p ∈ l, p.2 < st.nextRef) →
      st.nextRef ≤ (l.foldl (getStep keep) (rs, st)).2.nextRef ∧
      (l.foldl (getStep keep) (rs, st)).2.tasks = st.tasks ∧
      (∀ r, r < st.nextRef → (l.foldl (getStep keep) (rs, st)).2.heap r = st.heap r) ∧
      ∃ ns,
        (l.foldl (getStep keep) (rs, st)).1 = rs ++ ns ∧
        (∀ r' ∈ ns, st.nextRef ≤ r') ∧
        ns.map (derefTask (l.foldl (getStep keep) (rs, st)).2)
            = l.filterMap (fun p =>
                match st.heap p.2 with
                | some t0 => if keep t0 then some t0 else none
                | none => none) := by
  intro l
  induction l with
  | nil =>
    intro rs st _
    exact ⟨Nat.le_refl _, rfl, fun r _ => rfl, [], by simp, by simp, by simp⟩
  | cons p l' ih =>
    intro rs st hwf
    have hp2 : p.2 < st.nextRef := hwf p (List.mem_cons_self p l')
    rw [List.foldl_cons]
    cases hp : st.heap p.2 with
    | none =>
      have hstep : getStep keep (rs, st) p = (rs, st) := by
        simp [getStep, hp]
      rw [hstep]
      obtain ⟨h1, h2, h3, ns, h4, h5, h6⟩ :=
        ih rs st (fun q hq => hwf q (List.mem_cons_of_mem p hq))
      exact ⟨h1, h2, h3, ns, h4, h5, by simpa [List.filterMap_cons, hp] using h6⟩
    | some t0 =>
      by_cases hk : keep t0 = true
      · have hstep : getStep keep (rs, st) p
            = (rs ++ [st.nextRef],
               { st with heap := heapSet st.heap st.nextRef t0,
                         nextRef := st.nextRef + 1 }) := by
          simp [getStep, hp, hk, alloc]
        rw [hstep]
        obtain ⟨h1, h2, h3, ns, h4, h5, h6⟩ :=
          ih (rs ++ [st.nextRef])
             { st with heap := heapSet st.heap st.nextRef t0, nextRef := st.nextRef + 1 }
             (fun q hq => Nat.lt_succ_of_lt (hwf q (List.mem_cons_of_mem p hq)))
        refine ⟨Nat.le_trans (Nat.le_succ _) h1, h2, ?_, st.nextRef :: ns, ?_, ?_, ?_⟩
        · intro r hr
          rw [h3 r (Nat.lt_succ_of_lt hr)]
          exact heapSet_other _ _ _ _ (Nat.ne_of_lt hr)
        · rw [h4]
          simp
        · intro r' hr'
          rcases List.mem_cons.mp hr' with h | h
          · exact Nat.le_of_eq h.symm
          · exact Nat.le_trans (Nat.le_succ _) (h5 r' h)
        · have hval : derefTask
              (l'.foldl (getStep keep)
                (rs ++ [st.nextRef],
                 { st with heap := heapSet st.heap st.nextRef t0,
                           nextRef := st.nextRef + 1 })).2 st.nextRef = t0 := by
            have := h3 st.nextRef (Nat.lt_succ_self _)
            simp [derefTask, this, heapSet_self]
          have hcongr :
              l'.filterMap (fun q =>
                match heapSet st.heap st.nextRef t0 q.2 with
                | some t1 => if keep t1 then some t1 else none
                | none => none)
                = l'.filterMap (fun q =>
                    match st.heap q.2 with
                    | some t1 => if keep t1 then some t1 else none
                    | none => none) := by
            apply List.filterMap_congr
            intro q hq
            rw [heapSet_other _ _ _ _
              (Nat.ne_of_lt (hwf q (List.mem_cons_of_mem p hq)))]
          rw [List.filterMap_cons]
          simp only [hp, hk, if_true, List.map_cons, hval]
          rw [h6]
          exact congrArg _ hcongr
      · have hstep : getStep keep (rs, st) p = (rs, st) := by
          simp [getStep, hp, hk]
        rw [hstep]
        obtain ⟨h1, h2, h3, ns, h4, h5, h6⟩ :=
          ih rs st (fun q hq => hwf q (List.mem_cons_of_mem p hq))
        exact ⟨h1, h2, h3, ns, h4, h5, by simpa [List.filterMap_cons, hp, hk] using h6⟩

/-- Claim-level consequences of `getStep_fold_spec` for a copy loop run
from an empty accumulator: the returned refs hold copies of the kept
records, are distinct from every ref stored in the map, are untouched by a
subsequent `Update`, and writing through them leaves every stored cell
unchanged. -/
theorem getter_copies (keep : Models.Task → Bool) (s : StoreState)
    (hwfm : ∀ p ∈ s.tasks, p.2 < s.nextRef) :
    (s.tasks.foldl (getStep keep) ([], s)).1.map
        (derefTask (s.tasks.foldl (getStep keep) ([], s)).2)
      = s.tasks.filterMap (fun p =>
          match s.heap p.2 with
          | some t0 => if keep t0 then some t0 else none
          | none => none) ∧
    (∀ r' ∈ (s.tasks.foldl (getStep keep) ([], s)).1,
      ∀ id' rr, List.lookup id' s.tasks = some rr → r' ≠ rr) ∧
    (∀ id' d', ∀ r' ∈ (s.tasks.foldl (getStep keep) ([], s)).1,
      (Update (s.tasks.foldl (getStep keep) ([], s)).2 id' d').2.heap r'
        = (s.tasks.foldl (getStep keep) ([], s)).2.heap r') ∧
    (∀ r' ∈ (s.tasks.foldl (getStep keep) ([], s)).1,
      ∀ t' id' rr, List.lookup id' s.tasks = some rr →
        heapSet ((s.tasks.foldl (getStep keep) ([], s)).2.heap) r' t' rr = s.heap rr) := by
  obtain ⟨h1, h2, h3, ns, h4, h5, h6⟩ :=
    getStep_fold_spec keep s.tasks [] s (fun p hp => hwfm p hp)
  have hns : (s.tasks.foldl (getStep keep) ([], s)).1 = ns := by simpa using h4
  have hfresh : ∀ r' ∈ (s.tasks.foldl (getStep keep) ([], s)).1, s.nextRef ≤ r' := by
    rw [hns]
    exact h5
  have hint : ∀ (id' : Int) (rr : Ref), List.lookup id' s.tasks = some rr →
      rr < s.nextRef := fun id' rr hlk =>
    hwfm _ (mem_of_lookup_eq_some s.tasks id' rr hlk)
  refine ⟨?_, ?_, ?_, ?_⟩
  · rw [hns]
    exact h6
  · intro r' hr' id' rr hlk
    exact Nat.ne_of_gt (Nat.lt_of_lt_of_le (hint id' rr hlk) (hfresh r' hr'))
  · intro id' d' r' hr'
    rcases hlk : List.lookup id' (s.tasks.foldl (getStep keep) ([], s)).2.tasks with _ | rr
    · simp [Update, hlk]
    · rcases hh : (s.tasks.foldl (getStep keep) ([], s)).2.heap rr with _ | t2
      · simp [Update, hlk, hh]
      · simp only [Update, hlk, hh]
        apply heapSet_other
        rw [h2] at hlk
        exact Nat.ne_of_gt (Nat.lt_of_lt_of_le (hint id' rr hlk) (hfresh r' hr'))
  · intro r' hr' t' id' rr hlk
    rw [heapSet_other _ _ _ _
      (Nat.ne_of_lt (Nat.lt_of_lt_of_le (hint id' rr hlk) (hfresh r' hr')))]
    exact h3 rr (hint id' rr hlk)

/-- Counterexample to C4 as stated: the record handed back by `Create` is
the live map entry, not a copy — a later `Update` on the same id changes
what the `Create` caller holds (here from `done = false` to `done = true`). -/
theorem C4_counterexample :
    derefTask (Create newTaskStore "buy milk").2 (Create newTaskStore "buy milk").1
        = { id := 1, title := "buy milk", done := false } ∧
    derefTask (Update (Create newTaskStore "buy milk").2 1 true).2
        (Create newTaskStore "buy milk").1
        = { id := 1, title := "buy milk", done := true } ∧
    derefTask (Update (Create newTaskStore "buy milk").2 1 true).2
        (Create newTaskStore "buy milk").1
      ≠ derefTask (Create newTaskStore "buy milk").2 (Create newTaskStore "buy milk").1 := by
  refine ⟨rfl, rfl, by decide⟩

/-- C4 amended: `GetByID`, `GetAll` and `GetByStatus` hand back fresh
copies — distinct from every ref stored in the map, equal in value to the
kept records, unchanged by a later store `Update`, and writing through a
copy leaves every stored cell unchanged — but `Create` hands back the live
pointer stored in the map, so an `Update` on that id rewrites the very
record the `Create` caller received. -/
theorem C4_copies_except_create (s : StoreState) (id : Int) (r : Ref) (t : Models.Task)
    (hwfm : ∀ p ∈ s.tasks, p.2 < s.nextRef)
    (hr : List.lookup id s.tasks = some r) (ht : s.heap r = some t) :
    (∃ r', (GetByID s id).1 = some r' ∧ r' ≠ r ∧
      (GetByID s id).2.heap r' = some t ∧
      (∀ d, (Update (GetByID s id).2 id d).2.heap r' = some t) ∧
      (∀ t', heapSet ((GetByID s id).2.heap) r' t' r = some t)) ∧
    ((GetAll s).1.map (derefTask (GetAll s).2)
        = s.tasks.filterMap (fun p => s.heap p.2) ∧
      (∀ r' ∈ (GetAll s).1, ∀ id' rr, List.lookup id' s.tasks = some rr → r' ≠ rr) ∧
      (∀ id' d', ∀ r' ∈ (GetAll s).1,
        (Update (GetAll s).2 id' d').2.heap r' = (GetAll s).2.heap r') ∧
      (∀ r' ∈ (GetAll s).1, ∀ t' id' rr, List.lookup id' s.tasks = some rr →
        heapSet ((GetAll s).2.heap) r' t' rr = s.heap rr)) ∧
    (∀ d : Bool,
      (GetByStatus s d).1.map (derefTask (GetByStatus s d).2)
          = s.tasks.filterMap (fun p =>
              match s.heap p.2 with
              | some t0 => if t0.done == d then some t0 else none
              | none => none) ∧
      (∀ r' ∈ (GetByStatus s d).1, ∀ id' rr, List.lookup id' s.tasks = some rr → r' ≠ rr) ∧
      (∀ id' d', ∀ r' ∈ (GetByStatus s d).1,
        (Update (GetByStatus s d).2 id' d').2.heap r' = (GetByStatus s d).2.heap r') ∧
      (∀ r' ∈ (GetByStatus s d).1, ∀ t' id' rr, List.lookup id' s.tasks = some rr →
        heapSet ((GetByStatus s d).2.heap) r' t' rr = s.heap rr)) ∧
    (∀ title,
      List.lookup s.nextID (Create s title).2.tasks = some (Create s title).1 ∧
      ∀ d, (Update (Create s title).2 s.nextID d).2.heap (Create s title).1
          = some { id := s.nextID, title := title, done := d }) := by
  have hwf : ∀ (id' : Int) (r' : Ref),
      List.lookup id' s.tasks = some r' → r' < s.nextRef :=
    fun id' r' h => hwfm _ (mem_of_lookup_eq_some s.tasks id' r' h)
  have hrne : r ≠ s.nextRef := Nat.ne_of_lt (hwf id r hr)
  have hrne' : s.nextRef ≠ r := Ne.symm hrne
  refine ⟨?_, ?_, ?_, ?_⟩
  · have hget : GetByID s id =
        (some s.nextRef,
         { s with heap := heapSet s.heap s.nextRef t, nextRef := s.nextRef + 1 }) := by
      simp [GetByID, hr, ht, alloc]
    have hheap : heapSet s.heap s.nextRef t r = some t := by
      rw [heapSet_other _ _ _ _ hrne]
      exact ht
    refine ⟨s.nextRef, by rw [hget], hrne', ?_, ?_, ?_⟩
    · rw [hget]
      exact heapSet_self _ _ _
    · intro d
      rw [hget]
      simp only [Update, hr, hheap]
      simp [heapSet, hrne']
    · intro t'
      rw [hget]
      simp [heapSet, hrne, ht]
  · have hga := getter_copies (fun _ => true) s hwfm
    rw [GetAll_eq_fold]
    refine ⟨?_, hga.2.1, hga.2.2.1, hga.2.2.2⟩
    rw [hga.1]
    apply List.filterMap_congr
    intro p _
    cases s.heap p.2 <;> rfl
  · intro d
    have hgs := getter_copies (fun t0 => t0.done == d) s hwfm
    rw [GetByStatus_eq_fold]
    exact hgs
  · intro title
    rw [Create_eq]
    have hlk : List.lookup s.nextID (mapInsert s.tasks s.nextID s.nextRef)
        = some s.nextRef := by simp [mapInsert]
    constructor
    · simpa using hlk
    · intro d
      simp only [Update, hlk, heapSet_self]

/-- Witness for C4 (amended) on a concrete store holding one task:
the `GetByID` copy, the `GetAll`/`GetByStatus` copies and the `Create`
aliasing, all instantiated. -/
theorem C4_witness :
    (∃ r', (GetByID (Create newTaskStore "x").2 1).1 = some r' ∧ r' ≠ 0 ∧
      (GetByID (Create newTaskStore "x").2 1).2.heap r'
          = some { id := 1, title := "x", done := false } ∧
      (∀ d, (Update (GetByID (Create newTaskStore "x").2 1).2 1 d).2.heap r'
          = some { id := 1, title := "x", done := false }) ∧
      (∀ t', heapSet ((GetByID (Create newTaskStore "x").2 1).2.heap) r' t' 0
          = some { id := 1, title := "x", done := false })) ∧
    (GetAll (Create newTaskStore "x").2).1.map (derefTask (GetAll (Create newTaskStore "x").2).2)
        = (Create newTaskStore "x").2.tasks.filterMap
            (fun p => (Create newTaskStore "x").2.heap p.2) ∧
    (∀ r' ∈ (GetAll (Create newTaskStore "x").2).1,
      ∀ id' rr, List.lookup id' (Create newTaskStore "x").2.tasks = some rr → r' ≠ rr) ∧
    (∀ d : Bool,
      (GetByStatus (Create newTaskStore "x").2 d).1.map
          (derefTask (GetByStatus (Create newTaskStore "x").2 d).2)
        = (Create newTaskStore "x").2.tasks.filterMap (fun p =>
            match (Create newTaskStore "x").2.heap p.2 with
            | some t0 => if t0.done == d then some t0 else none
            | none => none)) ∧
    (∀ title,
      List.lookup ((Create newTaskStore "x").2).nextID
          (Create (Create newTaskStore "x").2 title).2.tasks
        = some (Create (Create newTaskStore "x").2 title).1 ∧
      ∀ d, (Update (Create (Create newTaskStore "x").2 title).2
              ((Create newTaskStore "x").2).nextID d).2.heap
              (Create (Create newTaskStore "x").2 title).1
          = some { id := ((Create newTaskStore "x").2).nextID, title := title, done := d }) := by
  have h := C4_copies_except_create (Create newTaskStore "x").2 1 0
    { id := 1, title := "x", done := false } (by decide) (by decide) rfl
  exact ⟨h.1, h.2.1.1, h.2.1.2.1, fun d => (h.2.2.1 d).1, h.2.2.2⟩

/-- C5: `POST /v1/tasks` — the title is whitespace-trimmed, then: 400
`invalid request body` when the body fails to decode, 400 `invalid title`
when the trimmed title is empty, 400 with the length-exceeded message when
it exceeds 200 bytes, otherwise 201 with the newly created record, whose
`done` flag is `false` (the store is untouched on every 400). -/
theorem C5_create_task_responses (req : Request) (s : StoreState) :
    (req.createBody = none →
      CreateTaskH req s = (respondJSON 400 (.errJson "invalid request body"), s)) ∧
    (∀ b, req.createBody = some b → trimSpace b.title = "" →
      CreateTaskH req s = (respondJSON 400 (.errJson "invalid title"), s)) ∧
    (∀ b, req.createBody = some b → trimSpace b.title ≠ "" →
      maxTitleLength < (trimSpace b.title).utf8ByteSize →
      CreateTaskH req s =
        (respondJSON 400 (.errJson "title exceeds maximum length of 200 characters"), s)) ∧
    (∀ b, req.createBody = some b → trimSpace b.title ≠ "" →
      (trimSpace b.title).utf8ByteSize ≤ maxTitleLength →
      (CreateTaskH req s).1.status = 201 ∧
      (CreateTaskH req s).1.body
          = .taskJson { id := s.nextID, title := trimSpace b.title, done := false } ∧
      (CreateTaskH req s).2 = (Create s (trimSpace b.title)).2) := by
  refine ⟨?_, ?_, ?_, ?_⟩
  · intro h
    simp [CreateTaskH, h]
  · intro b hb ht
    simp [CreateTaskH, hb, ht]
  · intro b hb ht hlen
    simp [CreateTaskH, hb, ht, hlen]
    rfl
  · intro b hb ht hlen
    have hnl : ¬ (maxTitleLength < (trimSpace b.title).utf8ByteSize) := by omega
    simp [CreateTaskH, hb, ht, hnl, respondJSON, Create_eq, derefTask, heapSet_self]

/-- Witness for C5: the 201-`'a'` title is rejected with the length message,
`"buy milk"` is created with id 1 and `done = false`. -/
theorem C5_witness :
    CreateTaskH createReqLong newTaskStore
        = (respondJSON 400 (.errJson "title exceeds maximum length of 200 characters"),
           newTaskStore) ∧
    (CreateTaskH createReqMilk newTaskStore).1.status = 201 ∧
    (CreateTaskH createReqMilk newTaskStore).1.body
        = .taskJson { id := 1, title := "buy milk", done := false } := by
  refine ⟨?_, ?_, ?_⟩
  · exact (C5_create_task_responses createReqLong newTaskStore).2.2.1
      { title := longTitle } rfl (by decide) (by decide)
  · exact ((C5_create_task_responses createReqMilk newTaskStore).2.2.2
      { title := "buy milk" } rfl (by decide) (by decide)).1
  · exact ((C5_create_task_responses createReqMilk newTaskStore).2.2.2
      { title := "buy milk" } rfl (by decide) (by decide)).2.1

/-- Counterexample to C3 as stated: `main` wraps the *whole* router —
`/health` included — in `APIKeyAuth`, so a `GET /health` with no API key is
answered `401 {"error":"unauthorized"}`, not `200 {"status":"healthy"}`. -/
theorem C3_counterexample :
    (app healthReqNoKey initSys).1.status = 401 ∧
    (app healthReqNoKey initSys).1.body = .errJson "unauthorized" ∧
    (app healthReqNoKey initSys).1.status ≠ 200 := by
  refine ⟨rfl, rfl, by decide⟩

/-- C3 amended: the `X-API-KEY` requirement applies to every route,
`/health` included — a `GET /health` request that passes the rate limiter
is answered 401 when its key is not allow-listed, and 200
`{"status":"healthy"}` when it is. -/
theorem C3_health_requires_key (req : Request) (s : Sys)
    (hm : req.method = "GET") (hp : req.path = "/health")
    (hallow : (allow s.rl req.remoteAddr req.now).1 = true) :
    (validKeysMain req.apiKey = false →
      (app req s).1.status = 401 ∧ (app req s).1.body = .errJson "unauthorized") ∧
    (validKeysMain req.apiKey = true →
      (app req s).1.status = 200 ∧
      (app req s).1.body = .raw "\x7b\"status\":\"healthy\"\x7d") := by
  constructor
  · intro hkey
    constructor <;>
      simp [app, Chain, Logger, RequestID, Limit, APIKeyAuth, setHeader, hallow, hkey]
  · intro hkey
    have he : (req.apiKey == "") = false := by
      by_cases hq : req.apiKey = ""
      · rw [hq] at hkey
        exact absurd hkey (by decide)
      · simpa using hq
    constructor <;>
      simp [app, Chain, Logger, RequestID, Limit, APIKeyAuth, setHeader, hallow, hkey, he,
        routerHandler, storeLift, routerCore, hm, hp, HealthH]

/-- Witness for C3 (amended): the keyless request is denied, the
allow-listed one reaches `/health`. -/
theorem C3_witness :
    ((app healthReqNoKey initSys).1.status = 401 ∧
     (app healthReqNoKey initSys).1.body = .errJson "unauthorized") ∧
    ((app healthReqWithKey initSys).1.status = 200 ∧
     (app healthReqWithKey initSys).1.body = .raw "\x7b\"status\":\"healthy\"\x7d") :=
  ⟨(C3_health_requires_key healthReqNoKey initSys rfl rfl (by decide)).1 (by decide),
   (C3_health_requires_key healthReqWithKey initSys rfl rfl (by decide)).2 (by decide)⟩

/-- C8: `Chain` composes outermost-first — `Chain (m :: ms) h = m (Chain ms h)`,
and the wiring from `main` nests exactly
`Logger (RequestID (Limit (APIKeyAuth validKeys h)))`; a denying stage
(auth failure, exhausted bucket) produces its error response without ever
invoking the inner handler (the result does not depend on it). -/
theorem C8_chain_order_and_short_circuit :
    (∀ (m : Middleware) (ms : List Middleware) (h : Handler),
      Chain (m :: ms) h = m (Chain ms h)) ∧
    (∀ h : Handler, Chain [Logger, RequestID, Limit, APIKeyAuth validKeysMain] h
        = Logger (RequestID (Limit (APIKeyAuth validKeysMain h)))) ∧
    (∀ (next next' : Handler) (req : Request) (s : Sys),
      validKeysMain req.apiKey = false →
      APIKeyAuth validKeysMain next req s = APIKeyAuth validKeysMain next' req s ∧
      (APIKeyAuth validKeysMain next req s).1.status = 401) ∧
    (∀ (next next' : Handler) (req : Request) (s : Sys),
      (allow s.rl req.remoteAddr req.now).1 = false →
      Limit next req s = Limit next' req s ∧
      (Limit next req s).1.status = 429) := by
  refine ⟨fun m ms h => rfl, fun h => rfl, ?_, ?_⟩
  · intro next next' req s hkey
    constructor <;> simp [APIKeyAuth, hkey]
  · intro next next' req s hdeny
    constructor <;> simp [Limit, hdeny]

/-- Witness for C8: the concrete chain from `main`, a keyless request
(401 independent of the inner handler), and an exhausted bucket (429). -/
theorem C8_witness :
    (Chain [Logger, RequestID, Limit, APIKeyAuth validKeysMain] routerHandler
        = Logger (RequestID (Limit (APIKeyAuth validKeysMain routerHandler)))) ∧
    (APIKeyAuth validKeysMain routerHandler healthReqNoKey initSys
        = APIKeyAuth validKeysMain (storeLift HealthH) healthReqNoKey initSys ∧
      (APIKeyAuth validKeysMain routerHandler healthReqNoKey initSys).1.status = 401) ∧
    (Limit routerHandler healthReqNoKey
          { counter := 0,
            rl := setVisitor (newRateLimiter 10) "192.0.2.1:1234"
                    { tokens := 0, lastSeen := 0, lastRefill := 0 },
            store := newTaskStore }
        = Limit (storeLift HealthH) healthReqNoKey
          { counter := 0,
            rl := setVisitor (newRateLimiter 10) "192.0.2.1:1234"
                    { tokens := 0, lastSeen := 0, lastRefill := 0 },
            store := newTaskStore } ∧
      (Limit routerHandler healthReqNoKey
          { counter := 0,
            rl := setVisitor (newRateLimiter 10) "192.0.2.1:1234"
                    { tokens := 0, lastSeen := 0, lastRefill := 0 },
            store := newTaskStore }).1.status = 429) :=
  ⟨(C8_chain_order_and_short_circuit.2.1 routerHandler),
   C8_chain_order_and_short_circuit.2.2.1 routerHandler (storeLift HealthH)
     healthReqNoKey initSys (by decide),
   C8_chain_order_and_short_circuit.2.2.2 routerHandler (storeLift HealthH)
     healthReqNoKey
     { counter := 0,
       rl := setVisitor (newRateLimiter 10) "192.0.2.1:1234"
               { tokens := 0, lastSeen := 0, lastRefill := 0 },
       store := newTaskStore } (by decide)⟩

theorem storeLift_counter (f : StoreHandler) (req : Request) (s : Sys) :
    ((storeLift f) req s).2.counter = s.counter := rfl

/-- The stages inside `RequestID` never touch the request-ID counter. -/
theorem inner_counter (req : Request) (s : Sys) :
    ((Limit (APIKeyAuth validKeysMain routerHandler)) req s).2.counter = s.counter := by
  by_cases hd : (allow s.rl req.remoteAddr req.now).1 = true
  · simp only [Limit, hd, if_true]
    by_cases hk : (req.apiKey == "" || !validKeysMain req.apiKey) = true
    · simp [APIKeyAuth, hk]
    · simp only [APIKeyAuth, hk, if_false]
      exact storeLift_counter _ _ _
  · simp [Limit, hd]

/-- Every response of the assembled handler carries
`X-Request-ID: req-<counter+1>`, and the counter advances by exactly one. -/
theorem app_request_id (req : Request) (s : Sys) :
    headerGet (app req s).1.headers "X-Request-ID" = some (mkReqID (s.counter + 1)) ∧
    (app req s).2.counter = s.counter + 1 := by
  constructor
  · show headerGet ((RequestID (Limit (APIKeyAuth validKeysMain routerHandler))) req s).1.headers
        "X-Request-ID" = some (mkReqID (s.counter + 1))
    simp [RequestID, headerGet, setHeader, mkReqID, List.lookup]
  · show ((RequestID (Limit (APIKeyAuth validKeysMain routerHandler))) req s).2.counter
        = s.counter + 1
    simp only [RequestID]
    rw [inner_counter]

theorem mkReqID_injective : Function.Injective mkReqID := by
  intro m n h
  apply natRepr_injective
  have hd := congrArg String.data h
  simp only [mkReqID, String.data_append] at hd
  exact String.ext (List.append_cancel_left hd)

theorem processAll_ids : ∀ (reqs : List Request) (s : Sys),
    (processAll s reqs).1.map (fun resp => headerGet resp.headers "X-Request-ID")
        = (List.range' (s.counter + 1) reqs.length).map (fun n => some (mkReqID n)) ∧
    (processAll s reqs).2.counter = s.counter + reqs.length := by
  intro reqs
  induction reqs with
  | nil => intro s; exact ⟨rfl, rfl⟩
  | cons req reqs ih =>
    intro s
    obtain ⟨hmap, hcnt⟩ := ih (app req s).2
    obtain ⟨hhd, hc1⟩ := app_request_id req s
    constructor
    · simp only [processAll, List.map_cons, hhd, hmap, hc1, List.length_cons,
        List.range'_succ, List.map]
    · simp only [processAll, List.length_cons]
      rw [hcnt, hc1]
      omega

/-- C9: over any request sequence, every response — denials included —
carries an `X-Request-ID` header equal to `req-<n>` for the successive
counter values `s.counter+1, s.counter+2, ...`; the counter strictly
increases and the resulting ID strings are pairwise distinct. -/
theorem C9_unique_request_ids (reqs : List Request) (s : Sys) :
    (processAll s reqs).1.map (fun resp => headerGet resp.headers "X-Request-ID")
        = (List.range' (s.counter + 1) reqs.length).map (fun n => some (mkReqID n)) ∧
    ((processAll s reqs).1.map (fun resp => headerGet resp.headers "X-Request-ID")).Nodup ∧
    (processAll s reqs).2.counter = s.counter + reqs.length := by
  obtain ⟨hmap, hcnt⟩ := processAll_ids reqs s
  refine ⟨hmap, ?_, hcnt⟩
  rw [hmap]
  exact (List.nodup_range' _ _).map
    (fun a b hab => mkReqID_injective (Option.some_injective _ hab))
